import Mathlib

/-!
Verification of the real-time telemetry core of PolymarketBTC15mAssistant:
the `DataStore` ring buffer (src/unnamed/part_000), the HTTP query handlers
(`/history`, `/performance` in src/src/web/routes/api.js) and the WebSocket
live channel (connection handler and `broadcast` in the same file).

The JavaScript is shallowly embedded: JS numbers stored in snapshot fields
are modelled by `JSVal` (an exact rational, or one of the special values
NaN, ±Infinity, null, undefined, non-number); arithmetic on finite values
is modelled exactly over the rationals. `Array.prototype.slice` with
possibly-negative indices is modelled by `jsSlice` with JS clamping
semantics. `Date.now()` is modelled by passing the current time as an
explicit argument.
-/

namespace PolyBTC

/-- A JavaScript value read from a numeric snapshot field: a finite number
(exact rational), NaN, positive or negative Infinity, null, undefined, or a
value of some non-number type. -/
inductive JSVal where
  | num (q : ℚ)
  | nan
  | inf
  | ninf
  | null
  | undef
  | nonNum
  deriving DecidableEq

/-- Embeds the JS test `typeof x === "number" && isFinite(x)`: NaN and
±Infinity have typeof "number" but are not finite; null/undefined/other
types are not numbers. -/
def JSVal.isFiniteNumber : JSVal → Bool
  | .num _ => true
  | _ => false

/-- JS division `a / b` of finite numbers: division by zero yields NaN for
`0 / 0` and a signed Infinity otherwise. -/
def jsDiv (a b : ℚ) : JSVal :=
  if b = 0 then (if a = 0 then .nan else if a > 0 then .inf else .ninf)
  else .num (a / b)

/-- JS multiplication of a number by the positive constant 100 (as in
`(count / maxSize) * 100`): NaN and the infinities are preserved. -/
def JSVal.mul100 : JSVal → JSVal
  | .num q => .num (q * 100)
  | v => v

/-- The `edge` sub-object of a snapshot: two fields that may each hold any
JS value (the aggregator only uses them when they are finite numbers). -/
structure EdgeObj where
  edgeUp : JSVal := .undef
  edgeDown : JSVal := .undef
  deriving DecidableEq

/-- The `regimeInfo` sub-object; only its `regime` field is read
(`snapshot.regimeInfo?.regime`). -/
structure RegimeInfo where
  regime : Option String := none
  deriving DecidableEq

/-- A bot snapshot as the core reads it. Only the fields the store and the
aggregator touch are modelled; `_addedAt` (an ISO string in the source) is
modelled by the numeric insertion time `addedAt`. `none` models an absent
(undefined) field. -/
structure Snapshot where
  signal : Option String := none
  edge : Option EdgeObj := none
  regime : Option String := none
  regimeInfo : Option RegimeInfo := none
  timestamp : Int := 0
  addedAt : Int := 0
  deriving DecidableEq

/-- Index resolution of `Array.prototype.slice`: a negative index counts
from the end of the array (`max (len + i) 0`), a non-negative one is
clamped to the length. -/
def jsSliceIndex (len : Nat) (i : Int) : Int :=
  if i < 0 then max ((len : Int) + i) 0 else min i (len : Int)

/-- `Array.prototype.slice(start, stop)`: the elements of the half-open
index window `[start', stop')` after JS index resolution. -/
def jsSlice (l : List Snapshot) (start stop : Int) : List Snapshot :=
  (l.take (jsSliceIndex l.length stop).toNat).drop (jsSliceIndex l.length start).toNat

/-- The ring-buffer data store of src/unnamed/part_000: a capacity, the
retained buffer (oldest first) and the construction time. -/
structure DataStore where
  maxSize : Nat
  buffer : List Snapshot
  startTime : Int
  deriving DecidableEq

/-- The `DataStore` constructor: empty buffer, `startTime = Date.now()`. -/
def DataStore.init (maxSize : Nat) (now : Int) : DataStore :=
  { maxSize := maxSize, buffer := [], startTime := now }

/-- `add(snapshot)`: stamp the snapshot with the current time (overriding
any producer-supplied `timestamp`), push it at the tail, and `shift()` the
head off if the buffer now exceeds `maxSize`. -/
def DataStore.add (st : DataStore) (snapshot : Snapshot) (now : Int) : DataStore :=
  let timestampedSnapshot := { snapshot with timestamp := now, addedAt := now }
  let pushed := st.buffer ++ [timestampedSnapshot]
  { st with buffer := if pushed.length > st.maxSize then pushed.tail else pushed }

/-- `getRecent(count)`: the whole buffer when `count >= length`, otherwise
`this.buffer.slice(-count)`. (For `count = 0` the source hits
`slice(-0)`, which is `slice(0)`, i.e. the whole buffer.) -/
def DataStore.getRecent (st : DataStore) (count : Nat) : List Snapshot :=
  if st.buffer.length ≤ count then st.buffer
  else jsSlice st.buffer (-(count : Int)) (st.buffer.length : Int)

/-- `getAll()`: a copy of the buffer. -/
def DataStore.getAll (st : DataStore) : List Snapshot :=
  st.buffer

/-- `getLast()`: the most recent snapshot, or null when empty. -/
def DataStore.getLast (st : DataStore) : Option Snapshot :=
  st.buffer.getLast?

/-- The record returned by `getStats()`; `utilization` is a JS number that
can be NaN (when `maxSize = 0` the source computes `(0 / 0) * 100`). -/
structure Stats where
  count : Nat
  maxSize : Nat
  utilization : JSVal
  uptimeMs : Int
  oldestTimestamp : Option Int
  newestTimestamp : Option Int
  deriving DecidableEq

/-- `getStats()` at current time `now`. -/
def DataStore.getStats (st : DataStore) (now : Int) : Stats :=
  { count := st.buffer.length
    maxSize := st.maxSize
    utilization := (jsDiv (st.buffer.length : ℚ) (st.maxSize : ℚ)).mul100
    uptimeMs := now - st.startTime
    oldestTimestamp := st.buffer.head?.map (fun s => s.timestamp)
    newestTimestamp := st.buffer.getLast?.map (fun s => s.timestamp) }

/-- `clear()`: reset the buffer only. -/
def DataStore.clear (st : DataStore) : DataStore :=
  { st with buffer := [] }

/-- The timestamping `add` performs on the snapshot of one append call
(the call's snapshot paired with the `Date.now()` value at that call). -/
def stampSnap (p : Snapshot × Int) : Snapshot :=
  { p.1 with timestamp := p.2, addedAt := p.2 }

/-- A sequence of `add` calls, each with its wall-clock time. -/
def addAll (st : DataStore) (calls : List (Snapshot × Int)) : DataStore :=
  calls.foldl (fun s p => s.add p.1 p.2) st

/-- Embeds `parseInt(x) || d`: a failed parse (NaN, modelled `none`) and a
parsed 0 are both falsy in JS and fall back to the default `d`. -/
def parseOr (raw : Option Int) (d : Int) : Int :=
  match raw with
  | none => d
  | some v => if v = 0 then d else v

/-- The effective `limit` of the /history handler:
`Math.min(parseInt(req.query.limit) || 100, 1000)`. -/
def histLimit (limitRaw : Option Int) : Int :=
  min (parseOr limitRaw 100) 1000

/-- The effective `offset` of the /history handler:
`parseInt(req.query.offset) || 0`. -/
def histOffset (offsetRaw : Option Int) : Int :=
  parseOr offsetRaw 0

/-- The JSON body returned by GET /api/history. -/
structure HistoryResponse where
  rows : List Snapshot
  total : Nat
  limit : Int
  offset : Int
  hasMore : Bool
  deriving DecidableEq

/-- The GET /api/history handler (src/src/web/routes/api.js lines 46-65):
pagination counted backward from the most recent entry via
`allData.slice(Math.max(0, total - offset - limit), total - offset)`. -/
def historyHandler (st : DataStore) (limitRaw offsetRaw : Option Int) : HistoryResponse :=
  let limit := histLimit limitRaw
  let offset := histOffset offsetRaw
  let allData := st.getAll
  let total : Int := allData.length
  { rows := jsSlice allData (max 0 (total - offset - limit)) (total - offset)
    total := allData.length
    limit := limit
    offset := offset
    hasMore := offset + limit < total }

/-- The accumulator of the /performance single-pass loop; `none` for the
running maxima models the `-Infinity` sentinel that is turned into `null`
at the end. -/
structure Acc where
  buyUpCount : Nat := 0
  buyDownCount : Nat := 0
  noTradeCount : Nat := 0
  edgeUpSum : ℚ := 0
  edgeUpCount : Nat := 0
  edgeDownSum : ℚ := 0
  edgeDownCount : Nat := 0
  maxEdgeUp : Option ℚ := none
  maxEdgeDown : Option ℚ := none
  positiveEdgeCount : Nat := 0
  regimeCount : List (String × Nat) := []
  deriving DecidableEq

/-- `regimeCount[regime] = (regimeCount[regime] || 0) + 1` on a JS object
used as a map (insertion-ordered association list). -/
def bumpRegime (m : List (String × Nat)) (k : String) : List (String × Nat) :=
  match m with
  | [] => [(k, 1)]
  | (k2, n) :: rest => if k2 = k then (k2, n + 1) :: rest else (k2, n) :: bumpRegime rest k

/-- JS `x || y` on an optional string: null/undefined and the empty string
are falsy and fall through to `y`. -/
def orFalsy (x : Option String) (y : String) : String :=
  match x with
  | some r => if r = "" then y else r
  | none => y

/-- `snapshot.regime || snapshot.regimeInfo?.regime || "UNKNOWN"`. -/
def regimeOf (s : Snapshot) : String :=
  orFalsy s.regime (orFalsy (s.regimeInfo.bind (fun ri => ri.regime)) "UNKNOWN")

/-- One `maxEdge = Math.max(maxEdge, v)` update starting from the
`-Infinity` sentinel (modelled `none`): `Math.max(-Infinity, v) = v`, and on
finite values Math.max is the usual maximum. -/
def stepMax (m : Option ℚ) (q : ℚ) : Option ℚ :=
  some (match m with | none => q | some v => max v q)

/-- The signal-counting section of the loop: strict equality against
"BUY UP" / "BUY DOWN", everything else (absent signal included) counts as
no-trade. -/
def countSignal (acc : Acc) (s : Snapshot) : Acc :=
  if s.signal = some "BUY UP" then { acc with buyUpCount := acc.buyUpCount + 1 }
  else if s.signal = some "BUY DOWN" then { acc with buyDownCount := acc.buyDownCount + 1 }
  else { acc with noTradeCount := acc.noTradeCount + 1 }

/-- The `edgeUp` aggregation: only a finite number contributes to sum,
count, running max and the positive-edge count. -/
def stepEdgeUp (acc : Acc) (e : EdgeObj) : Acc :=
  match e.edgeUp with
  | .num q =>
      { acc with
        edgeUpSum := acc.edgeUpSum + q
        edgeUpCount := acc.edgeUpCount + 1
        maxEdgeUp := stepMax acc.maxEdgeUp q
        positiveEdgeCount := acc.positiveEdgeCount + (if 0 < q then 1 else 0) }
  | _ => acc

/-- The `edgeDown` aggregation, symmetric to `stepEdgeUp`. -/
def stepEdgeDown (acc : Acc) (e : EdgeObj) : Acc :=
  match e.edgeDown with
  | .num q =>
      { acc with
        edgeDownSum := acc.edgeDownSum + q
        edgeDownCount := acc.edgeDownCount + 1
        maxEdgeDown := stepMax acc.maxEdgeDown q
        positiveEdgeCount := acc.positiveEdgeCount + (if 0 < q then 1 else 0) }
  | _ => acc

/-- The `if (snapshot.edge)` guard followed by the two channel updates. -/
def aggEdges (acc : Acc) (s : Snapshot) : Acc :=
  match s.edge with
  | some e => stepEdgeDown (stepEdgeUp acc e) e
  | none => acc

/-- The regime tally section of the loop. -/
def countRegime (acc : Acc) (s : Snapshot) : Acc :=
  { acc with regimeCount := bumpRegime acc.regimeCount (regimeOf s) }

/-- One iteration of the /performance loop body over one snapshot. -/
def stepAcc (acc : Acc) (s : Snapshot) : Acc :=
  countRegime (aggEdges (countSignal acc s) s) s

/-- The JSON body returned by GET /api/performance. -/
structure Report where
  totalSignals : Nat
  buyUpCount : Nat
  buyDownCount : Nat
  noTradeCount : Nat
  averageEdgeUp : Option ℚ
  averageEdgeDown : Option ℚ
  maxEdgeUp : Option ℚ
  maxEdgeDown : Option ℚ
  positiveEdgeCount : Nat
  regimeDistribution : List (String × Nat)
  deriving DecidableEq

/-- The early-return report for an empty store. -/
def emptyReport : Report :=
  { totalSignals := 0, buyUpCount := 0, buyDownCount := 0, noTradeCount := 0,
    averageEdgeUp := none, averageEdgeDown := none, maxEdgeUp := none,
    maxEdgeDown := none, positiveEdgeCount := 0, regimeDistribution := [] }

/-- The GET /api/performance handler (src/src/web/routes/api.js lines
90-164) applied to `dataStore.getAll()`. -/
def performanceReport (data : List Snapshot) : Report :=
  if data.length = 0 then emptyReport
  else
    let a := data.foldl stepAcc {}
    { totalSignals := data.length
      buyUpCount := a.buyUpCount
      buyDownCount := a.buyDownCount
      noTradeCount := a.noTradeCount
      averageEdgeUp := if 0 < a.edgeUpCount then some (a.edgeUpSum / (a.edgeUpCount : ℚ)) else none
      averageEdgeDown :=
        if 0 < a.edgeDownCount then some (a.edgeDownSum / (a.edgeDownCount : ℚ)) else none
      maxEdgeUp := a.maxEdgeUp
      maxEdgeDown := a.maxEdgeDown
      positiveEdgeCount := a.positiveEdgeCount
      regimeDistribution := a.regimeCount }

/-- The finite `edgeUp` value of one snapshot, if any: present exactly when
the snapshot has an `edge` object whose `edgeUp` is a finite number. -/
def upVal (s : Snapshot) : Option ℚ :=
  s.edge.bind (fun e => match e.edgeUp with | .num q => some q | _ => none)

/-- The finite `edgeDown` value of one snapshot, if any. -/
def downVal (s : Snapshot) : Option ℚ :=
  s.edge.bind (fun e => match e.edgeDown with | .num q => some q | _ => none)

/-- The finite `edgeUp` values of a snapshot list, in order (the values the
loop accumulates into `edgeUpSum`/`edgeUpCount`). -/
def upValues (data : List Snapshot) : List ℚ :=
  data.filterMap upVal

/-- The finite `edgeDown` values of a snapshot list, in order. -/
def downValues (data : List Snapshot) : List ℚ :=
  data.filterMap downVal

/-- A message sent over the live WebSocket channel. -/
inductive Msg where
  | snapshot (data : Snapshot)
  | update (data : Snapshot) (timestamp : Int)
  | pong (timestamp : Int)
  deriving DecidableEq

def Msg.isSnapshot : Msg → Bool
  | .snapshot _ => true
  | _ => false

def Msg.isUpdate : Msg → Bool
  | .update _ _ => true
  | _ => false

/-- One connected WebSocket consumer: its identity, transport readyState
(1 = OPEN), whether its `send` throws, and the messages it has received. -/
structure Client where
  id : Nat
  readyState : Nat := 1
  failsSend : Bool := false
  inbox : List Msg := []
  deriving DecidableEq

/-- `client.send(m)` inside a try/catch: delivery plus a success flag; a
throwing transport delivers nothing and the exception is caught. -/
def sendTo (c : Client) (m : Msg) : Client × Bool :=
  if c.failsSend then (c, false) else ({ c with inbox := c.inbox ++ [m] }, true)

/-- The per-client body of `broadcast`: send only to clients with
`readyState === 1`; a throw is caught and only counted. -/
def broadcastOne (m : Msg) (c : Client) : Client :=
  if c.readyState = 1 then (sendTo c m).1 else c

/-- `broadcast(data)` (src/src/web/routes/api.js lines 267-292): serialize
one update message and attempt it on every registered client. The registry
itself is not modified — a failed send is only logged and counted. -/
def broadcast (clients : List Client) (data : Snapshot) (now : Int) : List Client :=
  clients.map (broadcastOne (Msg.update data now))

/-- The failure count `broadcast` logs: registered OPEN clients whose send
threw. -/
def broadcastFailCount (clients : List Client) : Nat :=
  (clients.filter (fun c => c.readyState = 1 && c.failsSend)).length

/-- The `wss.on("connection", ...)` handler (lines 198-213): register the
client, then immediately send `dataStore.getLast()` as a "snapshot" message
if the store is non-empty (inside a try/catch). -/
def onConnection (st : DataStore) (id : Nat) (fails : Bool) : Client :=
  let c : Client := { id := id, failsSend := fails }
  match st.getLast with
  | some current => (sendTo c (Msg.snapshot current)).1
  | none => c

/-- The live channel: the store plus the consumer registry. -/
structure ChannelState where
  store : DataStore
  clients : List Client
  deriving DecidableEq

/-- An external stimulus: a new consumer connection, or one producer tick
(`append` to the store followed by the channel fan-out, the data flow of
the system overview). -/
inductive Event where
  | connect (id : Nat) (fails : Bool)
  | tick (s : Snapshot) (now : Int)
  deriving DecidableEq

/-- One step of the live channel under an external event, built from the
source handlers `onConnection`, `DataStore.add` and `broadcast`. -/
def stepEvent (st : ChannelState) (e : Event) : ChannelState :=
  match e with
  | .connect id fails => { st with clients := st.clients ++ [onConnection st.store id fails] }
  | .tick s now =>
      { store := st.store.add s now, clients := broadcast st.clients s now }

/-- Run the live channel over a sequence of events. -/
def runEvents (st : ChannelState) (es : List Event) : ChannelState :=
  es.foldl stepEvent st

/-- Concrete snapshot used in witnesses: a plain BUY UP tick. -/
def snapA : Snapshot :=
  { signal := some "BUY UP", edge := some { edgeUp := .num (1/20), edgeDown := .num (-(1/50)) } }

/-- Concrete snapshot used in witnesses: a NO TRADE tick whose `edge`
object has no `edgeDown` field. -/
def snapB : Snapshot :=
  { signal := some "NO TRADE", edge := some { edgeUp := .num (1/10) } }

/-- Concrete snapshot whose `edge.edgeUp` is NaN. -/
def snapNaN : Snapshot :=
  { signal := some "NO TRADE", edge := some { edgeUp := .nan, edgeDown := .num (1/4) } }

/-- Concrete open consumer whose transport works. -/
def clGood1 : Client := { id := 1 }

/-- Concrete open consumer whose `send` throws. -/
def clBad : Client := { id := 2, failsSend := true }

/-- Another concrete open consumer whose transport works. -/
def clGood3 : Client := { id := 3 }

end PolyBTC

namespace PolyBTC

theorem add_maxSize (st : DataStore) (s : Snapshot) (now : Int) :
    (st.add s now).maxSize = st.maxSize := rfl

theorem add_startTime (st : DataStore) (s : Snapshot) (now : Int) :
    (st.add s now).startTime = st.startTime := rfl

theorem add_buffer (st : DataStore) (s : Snapshot) (now : Int) :
    (st.add s now).buffer
      = if st.buffer.length + 1 > st.maxSize
        then (st.buffer ++ [stampSnap (s, now)]).tail
        else st.buffer ++ [stampSnap (s, now)] := by
  simp [DataStore.add, stampSnap]

theorem addAll_append (st : DataStore) (xs : List (Snapshot × Int)) (x : Snapshot × Int) :
    addAll st (xs ++ [x]) = (addAll st xs).add x.1 x.2 := by
  unfold addAll
  rw [List.foldl_append]
  rfl

theorem addAll_maxSize (st : DataStore) (calls : List (Snapshot × Int)) :
    (addAll st calls).maxSize = st.maxSize := by
  induction calls using List.reverseRecOn with
  | nil => rfl
  | append_singleton xs x ih => rw [addAll_append, add_maxSize, ih]

theorem addAll_startTime (st : DataStore) (calls : List (Snapshot × Int)) :
    (addAll st calls).startTime = st.startTime := by
  induction calls using List.reverseRecOn with
  | nil => rfl
  | append_singleton xs x ih => rw [addAll_append, add_startTime, ih]

/-- The buffer after a sequence of appends to a fresh store is exactly the
last `min k N` stamped snapshots, i.e. the length-`k - N` drop of the
stamped call sequence. -/
theorem addAll_buffer (N : Nat) (t0 : Int) (calls : List (Snapshot × Int)) :
    (addAll (DataStore.init N t0) calls).buffer
      = (calls.map stampSnap).drop (calls.length - N) := by
  induction calls using List.reverseRecOn with
  | nil => simp [addAll, DataStore.init]
  | append_singleton xs x ih =>
    rw [addAll_append, add_buffer, ih, addAll_maxSize]
    have hx : stampSnap (x.1, x.2) = stampSnap x := rfl
    rw [hx]
    set k := xs.length with hk
    set L := xs.map stampSnap with hL
    have hLlen : L.length = k := by simp [hL, hk]
    have hdroplen : (L.drop (k - N)).length = min k N := by
      rw [List.length_drop, hLlen]; omega
    have hmap : (xs ++ [x]).map stampSnap = L ++ [stampSnap x] := by
      simp [hL]
    have hlen2 : (xs ++ [x]).length = k + 1 := by simp [hk]
    rw [hmap, hlen2]
    have hinit : (DataStore.init N t0).maxSize = N := rfl
    rw [hinit]
    by_cases hcase : k < N
    · have h2 : k - N = 0 := by omega
      rw [h2, List.drop_zero]
      have h1 : ¬ (L.length + 1 > N) := by rw [hLlen]; omega
      rw [if_neg h1]
      have h3 : k + 1 - N = 0 := by omega
      rw [h3, List.drop_zero]
    · -- k ≥ N : the new element pushes the buffer over capacity, shift
      have h1 : (L.drop (k - N)).length + 1 > N := by
        rw [hdroplen]; omega
      rw [if_pos h1]
      by_cases hN : N = 0
      · subst hN
        have hnil : L.drop (k - 0) = [] := by
          apply List.drop_eq_nil_of_le; omega
        have hnil2 : (L ++ [stampSnap x]).drop (k + 1 - 0) = [] := by
          apply List.drop_eq_nil_of_le; simp [hLlen]
        rw [hnil, hnil2]
        rfl
      · -- N ≥ 1 : the retained part is nonempty, tail drops its head
        have hne : L.drop (k - N) ≠ [] := by
          intro hnil
          rw [hnil] at hdroplen
          simp at hdroplen
          omega
        obtain ⟨a, t, hat⟩ := List.exists_cons_of_ne_nil hne
        have htail : (L.drop (k - N) ++ [stampSnap x]).tail
            = (L.drop (k - N)).tail ++ [stampSnap x] := by
          rw [hat]; rfl
        rw [htail, List.tail_drop]
        have hd : k + 1 - N = (k - N) + 1 := by omega
        rw [hd]
        have hle : (k - N) + 1 ≤ L.length := by omega
        rw [List.drop_append_of_le_length hle]

/-- C1: for every capacity N and every sequence of append calls to a fresh
store, after each call the retained buffer is exactly the last min(k, N)
appended (stamped) snapshots in insertion order; hence its length is
min(k, N), eviction is FIFO, and when k > N the oldest retained element is
the (k - N + 1)-th appended snapshot. -/
theorem ringBufferFifoInvariant (N : Nat) (t0 : Int) (calls : List (Snapshot × Int)) :
    (addAll (DataStore.init N t0) calls).buffer
        = (calls.map stampSnap).drop (calls.length - N) ∧
    (addAll (DataStore.init N t0) calls).buffer.length = min calls.length N ∧
    (calls.length > N →
      (addAll (DataStore.init N t0) calls).buffer.head?
        = (calls.map stampSnap)[calls.length - N]?) := by
  refine ⟨addAll_buffer N t0 calls, ?_, ?_⟩
  · rw [addAll_buffer, List.length_drop, List.length_map]
    omega
  · intro _
    rw [addAll_buffer, List.head?_drop]

/-- Witness for C1 at capacity 1 and two appends: the oldest retained
element is the second appended snapshot. -/
theorem ringBufferFifoInvariantWitness :
    ([((snapA, 1) : Snapshot × Int), (snapB, 2)]).length > 1 ∧
    (addAll (DataStore.init 1 0) [(snapA, 1), (snapB, 2)]).buffer.head?
      = ([((snapA, 1) : Snapshot × Int), (snapB, 2)].map stampSnap)[
          [((snapA, 1) : Snapshot × Int), (snapB, 2)].length - 1]? :=
  ⟨by decide,
   (ringBufferFifoInvariant 1 0 [(snapA, 1), (snapB, 2)]).2.2 (by decide)⟩

theorem jsSliceIndex_ofNat (len : Nat) (i : Int) (h : 0 ≤ i) :
    jsSliceIndex len i = min i (len : Int) := by
  unfold jsSliceIndex
  rw [if_neg (by omega)]

theorem jsSliceIndex_negOfPos (len c : Nat) (hc : 1 ≤ c) :
    jsSliceIndex len (-(c : Int)) = max ((len : Int) - c) 0 := by
  unfold jsSliceIndex
  rw [if_pos (by omega)]
  omega

/-- C2 counterexample: on a store holding one snapshot, getRecent 0 hits
the JS quirk slice(-0) = slice(0) and returns the whole buffer — one
snapshot instead of min(0, 1) = 0. -/
theorem getRecentZeroCounterexample :
    (DataStore.getRecent { maxSize := 3600, buffer := [snapA], startTime := 0 } 0).length = 1 ∧
    min 0 [snapA].length = 0 := by
  decide

/-- C2 amended: for every store state and every positive count c,
getRecent c returns exactly the last min(c, length) snapshots of the
buffer, in chronological (oldest-first) order. (The claim fails only at
c = 0 on a non-empty buffer, where slice(-0) returns everything.) -/
theorem getRecentAmended (st : DataStore) (c : Nat) (hc : 1 ≤ c) :
    st.getRecent c = st.buffer.drop (st.buffer.length - c) ∧
    (st.getRecent c).length = min c st.buffer.length := by
  have hmain : st.getRecent c = st.buffer.drop (st.buffer.length - c) := by
    unfold DataStore.getRecent
    by_cases h : st.buffer.length ≤ c
    · rw [if_pos h]
      have h0 : st.buffer.length - c = 0 := by omega
      rw [h0, List.drop_zero]
    · rw [if_neg h]
      unfold jsSlice
      rw [jsSliceIndex_negOfPos _ _ hc, jsSliceIndex_ofNat _ _ (by omega)]
      have he : (min ((st.buffer.length : Int)) ((st.buffer.length : Int))).toNat
          = st.buffer.length := by omega
      have hs : (max ((st.buffer.length : Int) - c) 0).toNat = st.buffer.length - c := by
        omega
      rw [he, hs, List.take_length]
  refine ⟨hmain, ?_⟩
  rw [hmain, List.length_drop]
  omega

/-- Witness for C2 amended at c = 1 on a two-snapshot store. -/
theorem getRecentAmendedWitness :
    1 ≤ 1 ∧
    ((DataStore.mk 3600 [snapA, snapB] 0).getRecent 1
        = (DataStore.mk 3600 [snapA, snapB] 0).buffer.drop
            ((DataStore.mk 3600 [snapA, snapB] 0).buffer.length - 1) ∧
     ((DataStore.mk 3600 [snapA, snapB] 0).getRecent 1).length
        = min 1 (DataStore.mk 3600 [snapA, snapB] 0).buffer.length) :=
  ⟨by decide, getRecentAmended (DataStore.mk 3600 [snapA, snapB] 0) 1 (by decide)⟩

/-- C3 counterexample: with 2 stored snapshots, offset 3 and default limit
100, the handler computes slice(0, -1): JS resolves the negative end to
index 1 and returns 1 row from the front, while the claimed formula
min(limit, max(0, total - offset)) gives 0. -/
theorem historyPaginationCounterexample :
    (historyHandler (DataStore.mk 3600 [snapA, snapB] 0) none (some 3)).rows.length = 1 ∧
    min (historyHandler (DataStore.mk 3600 [snapA, snapB] 0) none (some 3)).limit
      (max 0 (((historyHandler (DataStore.mk 3600 [snapA, snapB] 0) none (some 3)).total : Int)
        - (historyHandler (DataStore.mk 3600 [snapA, snapB] 0) none (some 3)).offset)) = 0 := by
  decide

/-- C3 amended: for requests whose effective limit is positive and whose
offset lies between 0 and the number of stored rows, the /history response
satisfies rows.length = min(limit, max(0, total - offset)), rows is the
backward-counted window [total - offset - limit, total - offset) of the
buffer, and hasMore = (offset + limit < total). (The claim as stated fails
when offset exceeds total: the slice end index becomes negative and JS
wraps it to the front of the array.) -/
theorem historyPaginationAmended (st : DataStore) (limitRaw offsetRaw : Option Int)
    (hl : 1 ≤ histLimit limitRaw) (ho : 0 ≤ histOffset offsetRaw)
    (ho2 : histOffset offsetRaw ≤ (st.buffer.length : Int)) :
    (((historyHandler st limitRaw offsetRaw).rows.length : Int)
        = min (histLimit limitRaw)
            (max 0 ((st.buffer.length : Int) - histOffset offsetRaw))) ∧
    ((historyHandler st limitRaw offsetRaw).rows
        = (st.buffer.take (((st.buffer.length : Int) - histOffset offsetRaw).toNat)).drop
            ((((st.buffer.length : Int) - histOffset offsetRaw) - histLimit limitRaw).toNat)) ∧
    ((historyHandler st limitRaw offsetRaw).hasMore = true
        ↔ histOffset offsetRaw + histLimit limitRaw < (st.buffer.length : Int)) := by
  set n := st.buffer.length with hn
  set lim := histLimit limitRaw with hlim
  set off := histOffset offsetRaw with hoff
  have hrows : (historyHandler st limitRaw offsetRaw).rows
      = jsSlice st.buffer (max 0 ((n : Int) - off - lim)) ((n : Int) - off) := rfl
  have hstart : jsSliceIndex n (max 0 ((n : Int) - off - lim)) = max 0 ((n : Int) - off - lim) := by
    rw [jsSliceIndex_ofNat _ _ (le_max_left 0 _)]
    omega
  have hstop : jsSliceIndex n ((n : Int) - off) = (n : Int) - off := by
    rw [jsSliceIndex_ofNat _ _ (by omega)]
    omega
  have hmaxNat : (max 0 ((n : Int) - off - lim)).toNat = ((n : Int) - off - lim).toNat := by
    omega
  have hrows2 : (historyHandler st limitRaw offsetRaw).rows
      = (st.buffer.take (((n : Int) - off).toNat)).drop ((((n : Int) - off) - lim).toNat) := by
    rw [hrows]
    unfold jsSlice
    rw [← hn, hstart, hstop, hmaxNat]
  refine ⟨?_, hrows2, ?_⟩
  · rw [hrows2, List.length_drop, List.length_take, ← hn]
    omega
  · have hh : (historyHandler st limitRaw offsetRaw).hasMore
        = decide (off + lim < (n : Int)) := rfl
    rw [hh, decide_eq_true_iff]

/-- Witness for C3 amended: 2 stored snapshots, limit 1, offset 1 — one
row, the older snapshot, and no further page flag mismatch. -/
theorem historyPaginationAmendedWitness :
    (1 ≤ histLimit (some 1) ∧ 0 ≤ histOffset (some 1) ∧
      histOffset (some 1) ≤ (((DataStore.mk 3600 [snapA, snapB] 0).buffer.length : Nat) : Int)) ∧
    ((((historyHandler (DataStore.mk 3600 [snapA, snapB] 0) (some 1) (some 1)).rows.length : Int)
        = min (histLimit (some 1))
            (max 0 ((((DataStore.mk 3600 [snapA, snapB] 0).buffer.length : Nat) : Int)
              - histOffset (some 1)))) ∧
     ((historyHandler (DataStore.mk 3600 [snapA, snapB] 0) (some 1) (some 1)).rows
        = ((DataStore.mk 3600 [snapA, snapB] 0).buffer.take
            (((((DataStore.mk 3600 [snapA, snapB] 0).buffer.length : Nat) : Int)
              - histOffset (some 1)).toNat)).drop
            ((((((DataStore.mk 3600 [snapA, snapB] 0).buffer.length : Nat) : Int)
              - histOffset (some 1)) - histLimit (some 1)).toNat)) ∧
     ((historyHandler (DataStore.mk 3600 [snapA, snapB] 0) (some 1) (some 1)).hasMore = true
        ↔ histOffset (some 1) + histLimit (some 1)
            < (((DataStore.mk 3600 [snapA, snapB] 0).buffer.length : Nat) : Int))) :=
  ⟨⟨by decide, by decide, by decide⟩,
   historyPaginationAmended (DataStore.mk 3600 [snapA, snapB] 0) (some 1) (some 1)
     (by decide) (by decide) (by decide)⟩

theorem broadcastOne_id (m : Msg) (c : Client) : (broadcastOne m c).id = c.id := by
  unfold broadcastOne sendTo
  split
  · split <;> rfl
  · rfl

theorem broadcastOne_fails (m : Msg) (c : Client) (h : c.failsSend = true) :
    broadcastOne m c = c := by
  unfold broadcastOne sendTo
  simp [h]

theorem broadcastOne_delivers (m : Msg) (c : Client) (h1 : c.readyState = 1)
    (h2 : c.failsSend = false) :
    broadcastOne m c = { c with inbox := c.inbox ++ [m] } := by
  unfold broadcastOne sendTo
  simp [h1, h2]

theorem broadcast_ids (clients : List Client) (data : Snapshot) (now : Int) :
    (broadcast clients data now).map Client.id = clients.map Client.id := by
  induction clients with
  | nil => rfl
  | cons c rest ih =>
      unfold broadcast at ih ⊢
      simp only [List.map_cons, broadcastOne_id]
      rw [ih]

/-- C4 counterexample: three registered open consumers, the second's send
throws. After the broadcast the failing consumer is still in the registry
(broadcast only catches and counts the failure; removal happens only in
the separate close/error event handlers), so the claim's "that consumer is
dropped from the registry" is false. -/
theorem broadcastDropCounterexample :
    clBad ∈ broadcast [clGood1, clBad, clGood3] snapA 5 ∧
    (broadcast [clGood1, clBad, clGood3] snapA 5).map Client.id = [1, 2, 3] := by
  decide

/-- C4 amended: when a send throws during broadcast, the exception is
caught (broadcast is a total function of the registry), every other open
consumer still receives the update message, and the registry is unchanged
as a set of consumers — in particular the failing consumer is NOT dropped;
it remains registered. -/
theorem broadcastIsolationAmended (clients : List Client) (data : Snapshot) (now : Int)
    (c : Client) (hc : c ∈ clients) :
    (broadcast clients data now).map Client.id = clients.map Client.id ∧
    (c.failsSend = true → c ∈ broadcast clients data now) ∧
    (c.readyState = 1 → c.failsSend = false →
      { c with inbox := c.inbox ++ [Msg.update data now] } ∈ broadcast clients data now) := by
  refine ⟨broadcast_ids clients data now, ?_, ?_⟩
  · intro hfail
    have := List.mem_map_of_mem (broadcastOne (Msg.update data now)) hc
    rwa [broadcastOne_fails _ _ hfail] at this
  · intro hopen hok
    have := List.mem_map_of_mem (broadcastOne (Msg.update data now)) hc
    rwa [broadcastOne_delivers _ _ hopen hok] at this

/-- Witness for C4 amended on the three concrete consumers: the failing one
stays registered and a working open one receives the update. -/
theorem broadcastIsolationAmendedWitness :
    clBad ∈ [clGood1, clBad, clGood3] ∧
    clBad ∈ broadcast [clGood1, clBad, clGood3] snapA 5 ∧
    { clGood1 with inbox := clGood1.inbox ++ [Msg.update snapA 5] }
      ∈ broadcast [clGood1, clBad, clGood3] snapA 5 :=
  ⟨by decide,
   (broadcastIsolationAmended [clGood1, clBad, clGood3] snapA 5 clBad (by decide)).2.1 (by decide),
   (broadcastIsolationAmended [clGood1, clBad, clGood3] snapA 5 clGood1
      (by decide)).2.2 (by decide) (by decide)⟩

theorem countSignal_keep (acc : Acc) (s : Snapshot) :
    (countSignal acc s).edgeUpCount = acc.edgeUpCount ∧
    (countSignal acc s).edgeUpSum = acc.edgeUpSum ∧
    (countSignal acc s).edgeDownCount = acc.edgeDownCount ∧
    (countSignal acc s).edgeDownSum = acc.edgeDownSum ∧
    (countSignal acc s).maxEdgeUp = acc.maxEdgeUp ∧
    (countSignal acc s).maxEdgeDown = acc.maxEdgeDown ∧
    (countSignal acc s).positiveEdgeCount = acc.positiveEdgeCount ∧
    (countSignal acc s).regimeCount = acc.regimeCount := by
  unfold countSignal
  split
  · exact ⟨rfl, rfl, rfl, rfl, rfl, rfl, rfl, rfl⟩
  · split <;> exact ⟨rfl, rfl, rfl, rfl, rfl, rfl, rfl, rfl⟩

theorem countSignal_signalSum (acc : Acc) (s : Snapshot) :
    (countSignal acc s).buyUpCount + (countSignal acc s).buyDownCount
        + (countSignal acc s).noTradeCount
      = acc.buyUpCount + acc.buyDownCount + acc.noTradeCount + 1 := by
  unfold countSignal
  split
  · show acc.buyUpCount + 1 + acc.buyDownCount + acc.noTradeCount
        = acc.buyUpCount + acc.buyDownCount + acc.noTradeCount + 1
    omega
  · split
    · show acc.buyUpCount + (acc.buyDownCount + 1) + acc.noTradeCount
          = acc.buyUpCount + acc.buyDownCount + acc.noTradeCount + 1
      omega
    · show acc.buyUpCount + acc.buyDownCount + (acc.noTradeCount + 1)
          = acc.buyUpCount + acc.buyDownCount + acc.noTradeCount + 1
      omega

theorem stepEdgeUp_keep (acc : Acc) (e : EdgeObj) :
    (stepEdgeUp acc e).buyUpCount = acc.buyUpCount ∧
    (stepEdgeUp acc e).buyDownCount = acc.buyDownCount ∧
    (stepEdgeUp acc e).noTradeCount = acc.noTradeCount ∧
    (stepEdgeUp acc e).edgeDownCount = acc.edgeDownCount ∧
    (stepEdgeUp acc e).edgeDownSum = acc.edgeDownSum ∧
    (stepEdgeUp acc e).maxEdgeDown = acc.maxEdgeDown ∧
    (stepEdgeUp acc e).regimeCount = acc.regimeCount := by
  unfold stepEdgeUp
  cases e.edgeUp <;> exact ⟨rfl, rfl, rfl, rfl, rfl, rfl, rfl⟩

theorem stepEdgeDown_keep (acc : Acc) (e : EdgeObj) :
    (stepEdgeDown acc e).buyUpCount = acc.buyUpCount ∧
    (stepEdgeDown acc e).buyDownCount = acc.buyDownCount ∧
    (stepEdgeDown acc e).noTradeCount = acc.noTradeCount ∧
    (stepEdgeDown acc e).edgeUpCount = acc.edgeUpCount ∧
    (stepEdgeDown acc e).edgeUpSum = acc.edgeUpSum ∧
    (stepEdgeDown acc e).maxEdgeUp = acc.maxEdgeUp ∧
    (stepEdgeDown acc e).regimeCount = acc.regimeCount := by
  unfold stepEdgeDown
  cases e.edgeDown <;> exact ⟨rfl, rfl, rfl, rfl, rfl, rfl, rfl⟩

theorem stepEdgeUp_count (acc : Acc) (e : EdgeObj) :
    (stepEdgeUp acc e).edgeUpCount
      = acc.edgeUpCount + (match e.edgeUp with | .num _ => 1 | _ => 0) := by
  unfold stepEdgeUp
  cases e.edgeUp <;> rfl

theorem stepEdgeUp_sum (acc : Acc) (e : EdgeObj) :
    (stepEdgeUp acc e).edgeUpSum
      = acc.edgeUpSum + (match e.edgeUp with | .num q => q | _ => 0) := by
  unfold stepEdgeUp
  cases e.edgeUp <;> simp

theorem stepEdgeUp_max (acc : Acc) (e : EdgeObj) :
    (stepEdgeUp acc e).maxEdgeUp
      = (match e.edgeUp with | .num q => stepMax acc.maxEdgeUp q | _ => acc.maxEdgeUp) := by
  unfold stepEdgeUp
  cases e.edgeUp <;> rfl

theorem stepEdgeUp_pos (acc : Acc) (e : EdgeObj) :
    (stepEdgeUp acc e).positiveEdgeCount
      = acc.positiveEdgeCount
        + (match e.edgeUp with | .num q => if 0 < q then 1 else 0 | _ => 0) := by
  unfold stepEdgeUp
  cases e.edgeUp <;> rfl

theorem stepEdgeDown_count (acc : Acc) (e : EdgeObj) :
    (stepEdgeDown acc e).edgeDownCount
      = acc.edgeDownCount + (match e.edgeDown with | .num _ => 1 | _ => 0) := by
  unfold stepEdgeDown
  cases e.edgeDown <;> rfl

theorem stepEdgeDown_sum (acc : Acc) (e : EdgeObj) :
    (stepEdgeDown acc e).edgeDownSum
      = acc.edgeDownSum + (match e.edgeDown with | .num q => q | _ => 0) := by
  unfold stepEdgeDown
  cases e.edgeDown <;> simp

theorem stepEdgeDown_max (acc : Acc) (e : EdgeObj) :
    (stepEdgeDown acc e).maxEdgeDown
      = (match e.edgeDown with | .num q => stepMax acc.maxEdgeDown q | _ => acc.maxEdgeDown) := by
  unfold stepEdgeDown
  cases e.edgeDown <;> rfl

theorem stepEdgeDown_pos (acc : Acc) (e : EdgeObj) :
    (stepEdgeDown acc e).positiveEdgeCount
      = acc.positiveEdgeCount
        + (match e.edgeDown with | .num q => if 0 < q then 1 else 0 | _ => 0) := by
  unfold stepEdgeDown
  cases e.edgeDown <;> rfl

theorem stepAcc_upCount (acc : Acc) (s : Snapshot) :
    (stepAcc acc s).edgeUpCount
      = acc.edgeUpCount + (match upVal s with | some _ => 1 | none => 0) := by
  have h0 : (stepAcc acc s).edgeUpCount = (aggEdges (countSignal acc s) s).edgeUpCount := rfl
  rw [h0]
  unfold aggEdges upVal
  cases s.edge with
  | none =>
      rw [(countSignal_keep acc s).1]
      simp
  | some e =>
      rw [(stepEdgeDown_keep (stepEdgeUp (countSignal acc s) e) e).2.2.2.1,
        stepEdgeUp_count, (countSignal_keep acc s).1]
      obtain ⟨u, d⟩ := e
      cases u <;> rfl

theorem stepAcc_upSum (acc : Acc) (s : Snapshot) :
    (stepAcc acc s).edgeUpSum
      = acc.edgeUpSum + (match upVal s with | some q => q | none => 0) := by
  have h0 : (stepAcc acc s).edgeUpSum = (aggEdges (countSignal acc s) s).edgeUpSum := rfl
  rw [h0]
  unfold aggEdges upVal
  cases s.edge with
  | none =>
      rw [(countSignal_keep acc s).2.1]
      simp
  | some e =>
      rw [(stepEdgeDown_keep (stepEdgeUp (countSignal acc s) e) e).2.2.2.2.1,
        stepEdgeUp_sum, (countSignal_keep acc s).2.1]
      obtain ⟨u, d⟩ := e
      cases u <;> simp

theorem stepAcc_upMax (acc : Acc) (s : Snapshot) :
    (stepAcc acc s).maxEdgeUp
      = (match upVal s with | some q => stepMax acc.maxEdgeUp q | none => acc.maxEdgeUp) := by
  have h0 : (stepAcc acc s).maxEdgeUp = (aggEdges (countSignal acc s) s).maxEdgeUp := rfl
  rw [h0]
  unfold aggEdges upVal
  cases s.edge with
  | none => exact (countSignal_keep acc s).2.2.2.2.1
  | some e =>
      rw [(stepEdgeDown_keep (stepEdgeUp (countSignal acc s) e) e).2.2.2.2.2.1,
        stepEdgeUp_max, (countSignal_keep acc s).2.2.2.2.1]
      obtain ⟨u, d⟩ := e
      cases u <;> rfl

theorem stepAcc_downCount (acc : Acc) (s : Snapshot) :
    (stepAcc acc s).edgeDownCount
      = acc.edgeDownCount + (match downVal s with | some _ => 1 | none => 0) := by
  have h0 : (stepAcc acc s).edgeDownCount = (aggEdges (countSignal acc s) s).edgeDownCount := rfl
  rw [h0]
  unfold aggEdges downVal
  cases s.edge with
  | none =>
      rw [(countSignal_keep acc s).2.2.1]
      simp
  | some e =>
      rw [stepEdgeDown_count, (stepEdgeUp_keep (countSignal acc s) e).2.2.2.1,
        (countSignal_keep acc s).2.2.1]
      obtain ⟨u, d⟩ := e
      cases d <;> rfl

theorem stepAcc_downSum (acc : Acc) (s : Snapshot) :
    (stepAcc acc s).edgeDownSum
      = acc.edgeDownSum + (match downVal s with | some q => q | none => 0) := by
  have h0 : (stepAcc acc s).edgeDownSum = (aggEdges (countSignal acc s) s).edgeDownSum := rfl
  rw [h0]
  unfold aggEdges downVal
  cases s.edge with
  | none =>
      rw [(countSignal_keep acc s).2.2.2.1]
      simp
  | some e =>
      rw [stepEdgeDown_sum, (stepEdgeUp_keep (countSignal acc s) e).2.2.2.2.1,
        (countSignal_keep acc s).2.2.2.1]
      obtain ⟨u, d⟩ := e
      cases d <;> simp

theorem stepAcc_downMax (acc : Acc) (s : Snapshot) :
    (stepAcc acc s).maxEdgeDown
      = (match downVal s with | some q => stepMax acc.maxEdgeDown q | none => acc.maxEdgeDown) := by
  have h0 : (stepAcc acc s).maxEdgeDown = (aggEdges (countSignal acc s) s).maxEdgeDown := rfl
  rw [h0]
  unfold aggEdges downVal
  cases s.edge with
  | none => exact (countSignal_keep acc s).2.2.2.2.2.1
  | some e =>
      rw [stepEdgeDown_max, (stepEdgeUp_keep (countSignal acc s) e).2.2.2.2.2.1,
        (countSignal_keep acc s).2.2.2.2.2.1]
      obtain ⟨u, d⟩ := e
      cases d <;> rfl

theorem stepAcc_pos (acc : Acc) (s : Snapshot) :
    (stepAcc acc s).positiveEdgeCount
      = acc.positiveEdgeCount
        + (match upVal s with | some q => if 0 < q then 1 else 0 | none => 0)
        + (match downVal s with | some q => if 0 < q then 1 else 0 | none => 0) := by
  have h0 : (stepAcc acc s).positiveEdgeCount
      = (aggEdges (countSignal acc s) s).positiveEdgeCount := rfl
  rw [h0]
  unfold aggEdges upVal downVal
  cases s.edge with
  | none =>
      rw [(countSignal_keep acc s).2.2.2.2.2.2.1]
      simp
  | some e =>
      rw [stepEdgeDown_pos, stepEdgeUp_pos, (countSignal_keep acc s).2.2.2.2.2.2.1]
      obtain ⟨u, d⟩ := e
      cases u <;> cases d <;> rfl

theorem stepAcc_signalSum (acc : Acc) (s : Snapshot) :
    (stepAcc acc s).buyUpCount + (stepAcc acc s).buyDownCount + (stepAcc acc s).noTradeCount
      = acc.buyUpCount + acc.buyDownCount + acc.noTradeCount + 1 := by
  have h0 : (stepAcc acc s).buyUpCount = (aggEdges (countSignal acc s) s).buyUpCount := rfl
  have h1 : (stepAcc acc s).buyDownCount = (aggEdges (countSignal acc s) s).buyDownCount := rfl
  have h2 : (stepAcc acc s).noTradeCount = (aggEdges (countSignal acc s) s).noTradeCount := rfl
  rw [h0, h1, h2]
  unfold aggEdges
  cases s.edge with
  | none => exact countSignal_signalSum acc s
  | some e =>
      rw [(stepEdgeDown_keep (stepEdgeUp (countSignal acc s) e) e).1,
        (stepEdgeDown_keep (stepEdgeUp (countSignal acc s) e) e).2.1,
        (stepEdgeDown_keep (stepEdgeUp (countSignal acc s) e) e).2.2.1,
        (stepEdgeUp_keep (countSignal acc s) e).1,
        (stepEdgeUp_keep (countSignal acc s) e).2.1,
        (stepEdgeUp_keep (countSignal acc s) e).2.2.1]
      exact countSignal_signalSum acc s

theorem upValues_cons (s : Snapshot) (rest : List Snapshot) :
    upValues (s :: rest)
      = (match upVal s with | some q => q :: upValues rest | none => upValues rest) := by
  unfold upValues
  rw [List.filterMap_cons]
  cases upVal s <;> rfl

theorem downValues_cons (s : Snapshot) (rest : List Snapshot) :
    downValues (s :: rest)
      = (match downVal s with | some q => q :: downValues rest | none => downValues rest) := by
  unfold downValues
  rw [List.filterMap_cons]
  cases downVal s <;> rfl

theorem foldl_upCount (data : List Snapshot) : ∀ acc : Acc,
    (data.foldl stepAcc acc).edgeUpCount = acc.edgeUpCount + (upValues data).length := by
  induction data with
  | nil => intro acc; simp [upValues]
  | cons s rest ih =>
      intro acc
      rw [List.foldl_cons, ih (stepAcc acc s), stepAcc_upCount, upValues_cons]
      cases upVal s <;> simp <;> omega

theorem foldl_upSum (data : List Snapshot) : ∀ acc : Acc,
    (data.foldl stepAcc acc).edgeUpSum = acc.edgeUpSum + (upValues data).sum := by
  induction data with
  | nil => intro acc; simp [upValues]
  | cons s rest ih =>
      intro acc
      rw [List.foldl_cons, ih (stepAcc acc s), stepAcc_upSum, upValues_cons]
      cases upVal s <;> simp <;> ring

theorem foldl_downCount (data : List Snapshot) : ∀ acc : Acc,
    (data.foldl stepAcc acc).edgeDownCount = acc.edgeDownCount + (downValues data).length := by
  induction data with
  | nil => intro acc; simp [downValues]
  | cons s rest ih =>
      intro acc
      rw [List.foldl_cons, ih (stepAcc acc s), stepAcc_downCount, downValues_cons]
      cases downVal s <;> simp <;> omega

theorem foldl_downSum (data : List Snapshot) : ∀ acc : Acc,
    (data.foldl stepAcc acc).edgeDownSum = acc.edgeDownSum + (downValues data).sum := by
  induction data with
  | nil => intro acc; simp [downValues]
  | cons s rest ih =>
      intro acc
      rw [List.foldl_cons, ih (stepAcc acc s), stepAcc_downSum, downValues_cons]
      cases downVal s <;> simp <;> ring

theorem foldl_pos (data : List Snapshot) : ∀ acc : Acc,
    (data.foldl stepAcc acc).positiveEdgeCount
      = acc.positiveEdgeCount + (upValues data).countP (fun q => decide (0 < q))
        + (downValues data).countP (fun q => decide (0 < q)) := by
  induction data with
  | nil => intro acc; simp [upValues, downValues]
  | cons s rest ih =>
      intro acc
      rw [List.foldl_cons, ih (stepAcc acc s), stepAcc_pos, upValues_cons, downValues_cons]
      cases upVal s <;> cases downVal s <;> simp [List.countP_cons] <;> split <;> omega

theorem foldl_upMax (data : List Snapshot) : ∀ acc : Acc,
    (data.foldl stepAcc acc).maxEdgeUp = (upValues data).foldl stepMax acc.maxEdgeUp := by
  induction data with
  | nil => intro acc; simp [upValues]
  | cons s rest ih =>
      intro acc
      rw [List.foldl_cons, ih (stepAcc acc s), stepAcc_upMax, upValues_cons]
      cases upVal s <;> rfl

theorem foldl_downMax (data : List Snapshot) : ∀ acc : Acc,
    (data.foldl stepAcc acc).maxEdgeDown = (downValues data).foldl stepMax acc.maxEdgeDown := by
  induction data with
  | nil => intro acc; simp [downValues]
  | cons s rest ih =>
      intro acc
      rw [List.foldl_cons, ih (stepAcc acc s), stepAcc_downMax, downValues_cons]
      cases downVal s <;> rfl

theorem foldl_stepMax_some (l : List ℚ) : ∀ a : ℚ,
    l.foldl stepMax (some a) = some (l.foldl max a) := by
  induction l with
  | nil => intro a; rfl
  | cons q rest ih => intro a; exact ih (max a q)

theorem foldl_stepMax_none (l : List ℚ) : l.foldl stepMax none = l.max? := by
  cases l with
  | nil => rfl
  | cons a rest =>
      rw [List.max?_cons', List.foldl_cons]
      exact foldl_stepMax_some rest a

theorem foldl_signalSum (data : List Snapshot) : ∀ acc : Acc,
    (data.foldl stepAcc acc).buyUpCount + (data.foldl stepAcc acc).buyDownCount
        + (data.foldl stepAcc acc).noTradeCount
      = acc.buyUpCount + acc.buyDownCount + acc.noTradeCount + data.length := by
  induction data with
  | nil => intro acc; simp
  | cons s rest ih =>
      intro acc
      rw [List.foldl_cons, ih (stepAcc acc s)]
      have := stepAcc_signalSum acc s
      simp only [List.length_cons]
      omega

/-- C5: the /performance aggregation accumulates each edge channel's sum,
count and max only over finite numeric values (null/undefined/NaN/Infinity
are skipped silently), reports each average as sum/count when the count is
positive and as explicit null otherwise (never 0 as a false average),
counts strictly positive finite values across both channels in
positiveEdgeCount, and appending a snapshot whose edge.edgeUp is NaN
changes neither the count nor the sum behind averageEdgeUp. -/
theorem performanceEdgeAggregation (data : List Snapshot) :
    ((data.foldl stepAcc {}).edgeUpCount = (upValues data).length ∧
     (data.foldl stepAcc {}).edgeUpSum = (upValues data).sum) ∧
    ((data.foldl stepAcc {}).edgeDownCount = (downValues data).length ∧
     (data.foldl stepAcc {}).edgeDownSum = (downValues data).sum) ∧
    ((performanceReport data).maxEdgeUp = (upValues data).max? ∧
     (performanceReport data).maxEdgeDown = (downValues data).max?) ∧
    ((performanceReport data).averageEdgeUp
        = if 0 < (upValues data).length
          then some ((upValues data).sum / ((upValues data).length : ℚ)) else none) ∧
    ((performanceReport data).averageEdgeDown
        = if 0 < (downValues data).length
          then some ((downValues data).sum / ((downValues data).length : ℚ)) else none) ∧
    ((performanceReport data).positiveEdgeCount
        = (upValues data).countP (fun q => decide (0 < q))
          + (downValues data).countP (fun q => decide (0 < q))) ∧
    (∀ s : Snapshot, ∀ e : EdgeObj, s.edge = some e → e.edgeUp = JSVal.nan →
      ((data ++ [s]).foldl stepAcc {}).edgeUpCount = (data.foldl stepAcc {}).edgeUpCount ∧
      ((data ++ [s]).foldl stepAcc {}).edgeUpSum = (data.foldl stepAcc {}).edgeUpSum) := by
  refine ⟨⟨?_, ?_⟩, ⟨?_, ?_⟩, ⟨?_, ?_⟩, ?_, ?_, ?_, ?_⟩
  · simpa using foldl_upCount data {}
  · simpa using foldl_upSum data {}
  · simpa using foldl_downCount data {}
  · simpa using foldl_downSum data {}
  · cases data with
    | nil => rfl
    | cons s rest =>
        have h0 : (performanceReport (s :: rest)).maxEdgeUp
            = ((s :: rest).foldl stepAcc {}).maxEdgeUp := rfl
        rw [h0, foldl_upMax]
        exact foldl_stepMax_none _
  · cases data with
    | nil => rfl
    | cons s rest =>
        have h0 : (performanceReport (s :: rest)).maxEdgeDown
            = ((s :: rest).foldl stepAcc {}).maxEdgeDown := rfl
        rw [h0, foldl_downMax]
        exact foldl_stepMax_none _
  · cases data with
    | nil => rfl
    | cons s rest =>
        have h0 : (performanceReport (s :: rest)).averageEdgeUp
            = (if 0 < ((s :: rest).foldl stepAcc {}).edgeUpCount
               then some (((s :: rest).foldl stepAcc {}).edgeUpSum
                 / (((s :: rest).foldl stepAcc {}).edgeUpCount : ℚ)) else none) := rfl
        have hc : ((s :: rest).foldl stepAcc {}).edgeUpCount = (upValues (s :: rest)).length := by
          simpa using foldl_upCount (s :: rest) {}
        have hs : ((s :: rest).foldl stepAcc {}).edgeUpSum = (upValues (s :: rest)).sum := by
          simpa using foldl_upSum (s :: rest) {}
        rw [h0, hc, hs]
  · cases data with
    | nil => rfl
    | cons s rest =>
        have h0 : (performanceReport (s :: rest)).averageEdgeDown
            = (if 0 < ((s :: rest).foldl stepAcc {}).edgeDownCount
               then some (((s :: rest).foldl stepAcc {}).edgeDownSum
                 / (((s :: rest).foldl stepAcc {}).edgeDownCount : ℚ)) else none) := rfl
        have hc : ((s :: rest).foldl stepAcc {}).edgeDownCount
            = (downValues (s :: rest)).length := by
          simpa using foldl_downCount (s :: rest) {}
        have hs : ((s :: rest).foldl stepAcc {}).edgeDownSum = (downValues (s :: rest)).sum := by
          simpa using foldl_downSum (s :: rest) {}
        rw [h0, hc, hs]
  · cases data with
    | nil => rfl
    | cons s rest =>
        have h0 : (performanceReport (s :: rest)).positiveEdgeCount
            = ((s :: rest).foldl stepAcc {}).positiveEdgeCount := rfl
        rw [h0]
        simpa using foldl_pos (s :: rest) {}
  · intro s e hse hnan
    have hup : upVal s = none := by
      simp [upVal, hse, hnan]
    constructor
    · rw [List.foldl_append, List.foldl_cons, List.foldl_nil, stepAcc_upCount, hup]
      simp
    · rw [List.foldl_append, List.foldl_cons, List.foldl_nil, stepAcc_upSum, hup]
      simp

/-- Witness for C5's NaN clause: appending the concrete NaN-edged snapshot
to a two-snapshot history leaves the edgeUp count and sum untouched. -/
theorem performanceEdgeAggregationWitness :
    (snapNaN.edge = some { edgeUp := JSVal.nan, edgeDown := JSVal.num (1/4) } ∧
     ({ edgeUp := JSVal.nan, edgeDown := JSVal.num (1/4) } : EdgeObj).edgeUp = JSVal.nan) ∧
    ((([snapA, snapB] ++ [snapNaN]).foldl stepAcc {}).edgeUpCount
        = ([snapA, snapB].foldl stepAcc {}).edgeUpCount ∧
     (([snapA, snapB] ++ [snapNaN]).foldl stepAcc {}).edgeUpSum
        = ([snapA, snapB].foldl stepAcc {}).edgeUpSum) :=
  ⟨⟨rfl, rfl⟩,
   (performanceEdgeAggregation [snapA, snapB]).2.2.2.2.2.2 snapNaN
     { edgeUp := JSVal.nan, edgeDown := JSVal.num (1/4) } rfl rfl⟩

/-- C6: on an empty History, the /performance handler returns a report with
all counts zero, all averages and maxes null, and an empty regime
distribution — it does not error. -/
theorem performanceEmptyReport :
    performanceReport [] =
      { totalSignals := 0, buyUpCount := 0, buyDownCount := 0, noTradeCount := 0,
        averageEdgeUp := none, averageEdgeDown := none, maxEdgeUp := none,
        maxEdgeDown := none, positiveEdgeCount := 0, regimeDistribution := [] } := rfl

theorem countSignal_buyUp (acc : Acc) (s : Snapshot) :
    (countSignal acc s).buyUpCount
      = acc.buyUpCount + (if s.signal = some "BUY UP" then 1 else 0) := by
  unfold countSignal
  by_cases h1 : s.signal = some "BUY UP"
  · simp [h1]
  · by_cases h2 : s.signal = some "BUY DOWN" <;> simp [h1, h2]

theorem countSignal_buyDown (acc : Acc) (s : Snapshot) :
    (countSignal acc s).buyDownCount
      = acc.buyDownCount + (if s.signal = some "BUY DOWN" then 1 else 0) := by
  unfold countSignal
  by_cases h1 : s.signal = some "BUY UP"
  · have h2 : ¬ (s.signal = some "BUY DOWN") := by
      rw [h1]
      decide
    simp [h1, h2]
  · by_cases h2 : s.signal = some "BUY DOWN" <;> simp [h1, h2]

theorem countSignal_noTrade (acc : Acc) (s : Snapshot) :
    (countSignal acc s).noTradeCount
      = acc.noTradeCount
        + (if s.signal = some "BUY UP" then 0
           else if s.signal = some "BUY DOWN" then 0 else 1) := by
  unfold countSignal
  by_cases h1 : s.signal = some "BUY UP"
  · simp [h1]
  · by_cases h2 : s.signal = some "BUY DOWN" <;> simp [h1, h2]

theorem stepAcc_buyUp (acc : Acc) (s : Snapshot) :
    (stepAcc acc s).buyUpCount
      = acc.buyUpCount + (if s.signal = some "BUY UP" then 1 else 0) := by
  have h0 : (stepAcc acc s).buyUpCount = (aggEdges (countSignal acc s) s).buyUpCount := rfl
  rw [h0]
  unfold aggEdges
  cases s.edge with
  | none => exact countSignal_buyUp acc s
  | some e =>
      rw [(stepEdgeDown_keep (stepEdgeUp (countSignal acc s) e) e).1,
        (stepEdgeUp_keep (countSignal acc s) e).1]
      exact countSignal_buyUp acc s

theorem stepAcc_buyDown (acc : Acc) (s : Snapshot) :
    (stepAcc acc s).buyDownCount
      = acc.buyDownCount + (if s.signal = some "BUY DOWN" then 1 else 0) := by
  have h0 : (stepAcc acc s).buyDownCount = (aggEdges (countSignal acc s) s).buyDownCount := rfl
  rw [h0]
  unfold aggEdges
  cases s.edge with
  | none => exact countSignal_buyDown acc s
  | some e =>
      rw [(stepEdgeDown_keep (stepEdgeUp (countSignal acc s) e) e).2.1,
        (stepEdgeUp_keep (countSignal acc s) e).2.1]
      exact countSignal_buyDown acc s

theorem stepAcc_noTrade (acc : Acc) (s : Snapshot) :
    (stepAcc acc s).noTradeCount
      = acc.noTradeCount
        + (if s.signal = some "BUY UP" then 0
           else if s.signal = some "BUY DOWN" then 0 else 1) := by
  have h0 : (stepAcc acc s).noTradeCount = (aggEdges (countSignal acc s) s).noTradeCount := rfl
  rw [h0]
  unfold aggEdges
  cases s.edge with
  | none => exact countSignal_noTrade acc s
  | some e =>
      rw [(stepEdgeDown_keep (stepEdgeUp (countSignal acc s) e) e).2.2.1,
        (stepEdgeUp_keep (countSignal acc s) e).2.2.1]
      exact countSignal_noTrade acc s

theorem foldl_buyUp (data : List Snapshot) : ∀ acc : Acc,
    (data.foldl stepAcc acc).buyUpCount
      = acc.buyUpCount + data.countP (fun s => decide (s.signal = some "BUY UP")) := by
  induction data with
  | nil => intro acc; simp
  | cons s rest ih =>
      intro acc
      rw [List.foldl_cons, ih (stepAcc acc s), stepAcc_buyUp, List.countP_cons]
      by_cases h : s.signal = some "BUY UP" <;> simp [h] <;> omega

theorem foldl_buyDown (data : List Snapshot) : ∀ acc : Acc,
    (data.foldl stepAcc acc).buyDownCount
      = acc.buyDownCount + data.countP (fun s => decide (s.signal = some "BUY DOWN")) := by
  induction data with
  | nil => intro acc; simp
  | cons s rest ih =>
      intro acc
      rw [List.foldl_cons, ih (stepAcc acc s), stepAcc_buyDown, List.countP_cons]
      by_cases h : s.signal = some "BUY DOWN" <;> simp [h] <;> omega

theorem foldl_noTrade (data : List Snapshot) : ∀ acc : Acc,
    (data.foldl stepAcc acc).noTradeCount
      = acc.noTradeCount
        + data.countP (fun s =>
            !(decide (s.signal = some "BUY UP")) && !(decide (s.signal = some "BUY DOWN"))) := by
  induction data with
  | nil => intro acc; simp
  | cons s rest ih =>
      intro acc
      rw [List.foldl_cons, ih (stepAcc acc s), stepAcc_noTrade, List.countP_cons]
      by_cases h1 : s.signal = some "BUY UP" <;> by_cases h2 : s.signal = some "BUY DOWN" <;>
        simp [h1, h2] <;> omega

/-- C7: every snapshot's signal is classified into exactly one of the three
buckets: buyUpCount counts exactly the snapshots whose signal is "BUY UP",
buyDownCount exactly those whose signal is "BUY DOWN", and noTradeCount
exactly all the others — snapshots whose signal is unset or unrecognized
fall into noTradeCount — so the three buckets sum to totalSignals, the
History length. -/
theorem signalBucketsPartition (data : List Snapshot) :
    (performanceReport data).buyUpCount
        = data.countP (fun s => decide (s.signal = some "BUY UP")) ∧
    (performanceReport data).buyDownCount
        = data.countP (fun s => decide (s.signal = some "BUY DOWN")) ∧
    (performanceReport data).noTradeCount
        = data.countP (fun s =>
            !(decide (s.signal = some "BUY UP")) && !(decide (s.signal = some "BUY DOWN"))) ∧
    (performanceReport data).buyUpCount + (performanceReport data).buyDownCount
        + (performanceReport data).noTradeCount = (performanceReport data).totalSignals ∧
    (performanceReport data).totalSignals = data.length := by
  cases data with
  | nil => exact ⟨rfl, rfl, rfl, rfl, rfl⟩
  | cons s rest =>
      have h0 : (performanceReport (s :: rest)).buyUpCount
          = ((s :: rest).foldl stepAcc {}).buyUpCount := rfl
      have h1 : (performanceReport (s :: rest)).buyDownCount
          = ((s :: rest).foldl stepAcc {}).buyDownCount := rfl
      have h2 : (performanceReport (s :: rest)).noTradeCount
          = ((s :: rest).foldl stepAcc {}).noTradeCount := rfl
      have h3 : (performanceReport (s :: rest)).totalSignals = (s :: rest).length := rfl
      refine ⟨?_, ?_, ?_, ?_, rfl⟩
      · rw [h0]
        simpa using foldl_buyUp (s :: rest) {}
      · rw [h1]
        simpa using foldl_buyDown (s :: rest) {}
      · rw [h2]
        simpa using foldl_noTrade (s :: rest) {}
      · rw [h0, h1, h2, h3]
        simpa using foldl_signalSum (s :: rest) {}

/-- C9: appending the snapshot with signal BUY UP and edges
{edgeUp 0.05 = 1/20, edgeDown -0.02 = -1/50} and then the snapshot with
signal NO TRADE and edgeUp 0.10 = 1/10 (no edgeDown) to an empty store
makes the /performance report yield buyUpCount 1, noTradeCount 1,
averageEdgeUp 0.075 = 3/40, and positiveEdgeCount 2. -/
theorem concreteScenarioReport :
    (performanceReport (((DataStore.init 3600 0).add snapA 1).add snapB 2).getAll).buyUpCount
        = 1 ∧
    (performanceReport (((DataStore.init 3600 0).add snapA 1).add snapB 2).getAll).noTradeCount
        = 1 ∧
    (performanceReport (((DataStore.init 3600 0).add snapA 1).add snapB 2).getAll).averageEdgeUp
        = some (3/40) ∧
    (performanceReport
        (((DataStore.init 3600 0).add snapA 1).add snapB 2).getAll).positiveEdgeCount
        = 2 := by
  set d := (((DataStore.init 3600 0).add snapA 1).add snapB 2).getAll with hd
  have hup : upValues d = [(1 : ℚ)/20, 1/10] := rfl
  have hdown : downValues d = [-((1 : ℚ)/50)] := rfl
  refine ⟨by decide, by decide, ?_, ?_⟩
  · have h0 : (performanceReport d).averageEdgeUp
        = if 0 < (d.foldl stepAcc {}).edgeUpCount
          then some ((d.foldl stepAcc {}).edgeUpSum / ((d.foldl stepAcc {}).edgeUpCount : ℚ))
          else none := rfl
    have hc : (d.foldl stepAcc {}).edgeUpCount = (upValues d).length := by
      simpa using foldl_upCount d {}
    have hs : (d.foldl stepAcc {}).edgeUpSum = (upValues d).sum := by
      simpa using foldl_upSum d {}
    rw [h0, hc, hs, hup]
    norm_num
  · have h0 : (performanceReport d).positiveEdgeCount
        = (d.foldl stepAcc {}).positiveEdgeCount := rfl
    rw [h0, foldl_pos d {}, hup, hdown]
    norm_num [List.countP_cons, List.countP_nil]

theorem broadcastOne_inbox (m : Msg) (c : Client) :
    (broadcastOne m c).inbox = c.inbox ∨ (broadcastOne m c).inbox = c.inbox ++ [m] := by
  unfold broadcastOne sendTo
  by_cases h1 : c.readyState = 1
  · by_cases h2 : c.failsSend
    · left; simp [h1, h2]
    · right; simp [h1, h2]
  · left; simp [h1]

theorem stepEvent_clients_prefix (st : ChannelState) (e : Event) (i : Nat) (c : Client)
    (h : st.clients[i]? = some c) :
    ∃ c2 l, (stepEvent st e).clients[i]? = some c2 ∧ c2.id = c.id ∧
      c2.inbox = c.inbox ++ l ∧ l.all Msg.isUpdate = true := by
  cases e with
  | connect id fails =>
      refine ⟨c, [], ?_, rfl, by simp, rfl⟩
      have hlt : i < st.clients.length := by
        rcases List.getElem?_eq_some_iff.mp h with ⟨hl, -⟩
        exact hl
      rw [show (stepEvent st (Event.connect id fails)).clients
            = st.clients ++ [onConnection st.store id fails] from rfl]
      rw [List.getElem?_append_left hlt]
      exact h
  | tick s now =>
      have hmap : (stepEvent st (Event.tick s now)).clients
          = st.clients.map (broadcastOne (Msg.update s now)) := rfl
      rcases broadcastOne_inbox (Msg.update s now) c with hin | hin
      · refine ⟨broadcastOne (Msg.update s now) c, [], ?_, broadcastOne_id _ c, by simp [hin], rfl⟩
        rw [hmap, List.getElem?_map, h]
        rfl
      · refine ⟨broadcastOne (Msg.update s now) c, [Msg.update s now], ?_,
          broadcastOne_id _ c, hin, by simp [Msg.isUpdate]⟩
        rw [hmap, List.getElem?_map, h]
        rfl

theorem runEvents_clients_extend (es : List Event) : ∀ (st : ChannelState) (i : Nat) (c : Client),
    st.clients[i]? = some c →
    ∃ c2 l, (runEvents st es).clients[i]? = some c2 ∧ c2.id = c.id ∧
      c2.inbox = c.inbox ++ l ∧ l.all Msg.isUpdate = true := by
  induction es with
  | nil =>
      intro st i c h
      exact ⟨c, [], h, rfl, by simp, rfl⟩
  | cons e rest ih =>
      intro st i c h
      obtain ⟨c1, l1, h1, hid1, hin1, hupd1⟩ := stepEvent_clients_prefix st e i c h
      obtain ⟨c2, l2, h2, hid2, hin2, hupd2⟩ := ih (stepEvent st e) i c1 h1
      refine ⟨c2, l1 ++ l2, h2, by rw [hid2, hid1], ?_, ?_⟩
      · rw [hin2, hin1, List.append_assoc]
      · rw [List.all_append, hupd1, hupd2]
        rfl

theorem onConnection_inbox (st : DataStore) (id : Nat) :
    onConnection st id false
      = { id := id, readyState := 1, failsSend := false,
          inbox := match st.getLast with | some cur => [Msg.snapshot cur] | none => [] } := by
  unfold onConnection sendTo
  cases st.getLast <;> rfl

theorem countP_isSnapshot_of_all_update (l : List Msg) (h : l.all Msg.isUpdate = true) :
    l.countP Msg.isSnapshot = 0 := by
  induction l with
  | nil => rfl
  | cons m rest ih =>
      rw [List.all_cons, Bool.and_eq_true] at h
      cases m with
      | update d t => rw [List.countP_cons, ih h.2]; rfl
      | snapshot d => simp [Msg.isUpdate] at h
      | pong t => simp [Msg.isUpdate] at h

theorem getLast_none_iff (st : DataStore) : st.getLast = none ↔ st.buffer = [] := by
  unfold DataStore.getLast
  exact List.getLast?_eq_none_iff

/-- C8: whenever a consumer (whose transport works) connects, it
immediately receives exactly one message of type "snapshot" containing
Store.getLast() if the History is non-empty at that moment, and this
message precedes every "update" message it ever receives; when the History
is empty at connect time no snapshot message is sent and the consumer only
ever receives update messages. -/
theorem connectResyncProtocol (store0 : DataStore) (pre post : List Event) (id : Nat) :
    ∃ c, (runEvents (ChannelState.mk store0 []) (pre ++ Event.connect id false :: post)).clients[
            (runEvents (ChannelState.mk store0 []) pre).clients.length]? = some c ∧
      ((runEvents (ChannelState.mk store0 []) pre).store.buffer = [] →
        c.inbox.all Msg.isUpdate = true) ∧
      (∀ cur, (runEvents (ChannelState.mk store0 []) pre).store.getLast = some cur →
        c.inbox.head? = some (Msg.snapshot cur) ∧
        c.inbox.tail.all Msg.isUpdate = true ∧
        c.inbox.countP Msg.isSnapshot = 1) := by
  have hsplit : runEvents (ChannelState.mk store0 []) (pre ++ Event.connect id false :: post)
      = runEvents (stepEvent (runEvents (ChannelState.mk store0 []) pre)
          (Event.connect id false)) post := by
    unfold runEvents
    rw [List.foldl_append]
    rfl
  set s1 := runEvents (ChannelState.mk store0 []) pre with hs1
  have hnew : (stepEvent s1 (Event.connect id false)).clients[s1.clients.length]?
      = some (onConnection s1.store id false) := by
    rw [show (stepEvent s1 (Event.connect id false)).clients
          = s1.clients ++ [onConnection s1.store id false] from rfl]
    exact List.getElem?_concat_length s1.clients (onConnection s1.store id false)
  obtain ⟨c2, l, h2, hid, hin, hupd⟩ :=
    runEvents_clients_extend post (stepEvent s1 (Event.connect id false))
      s1.clients.length (onConnection s1.store id false) hnew
  rw [onConnection_inbox] at hin
  refine ⟨c2, by rw [hsplit]; exact h2, ?_, ?_⟩
  · intro hemp
    have hnone : s1.store.getLast = none := (getLast_none_iff s1.store).mpr hemp
    have hc0 : c2.inbox = l := by
      rw [hin, hnone]
      rfl
    rw [hc0]
    exact hupd
  · intro cur hcur
    have hc2 : c2.inbox = Msg.snapshot cur :: l := by
      rw [hin, hcur]
      rfl
    refine ⟨?_, ?_, ?_⟩
    · rw [hc2]
      rfl
    · rw [hc2]
      exact hupd
    · rw [hc2, List.countP_cons, countP_isSnapshot_of_all_update l hupd]
      rfl

/-- Witness for C8: a tick, then the connection, then another tick — the
consumer's first message is the snapshot of the state at connect time and
everything after it is an update. -/
theorem connectResyncProtocolWitness :
    ∃ c, (runEvents (ChannelState.mk (DataStore.mk 3600 [] 0) [])
            ([Event.tick snapA 1] ++ Event.connect 7 false :: [Event.tick snapB 2])).clients[
            (runEvents (ChannelState.mk (DataStore.mk 3600 [] 0) [])
              [Event.tick snapA 1]).clients.length]? = some c ∧
      c.inbox.head? = some (Msg.snapshot (stampSnap (snapA, 1))) ∧
      c.inbox.tail.all Msg.isUpdate = true ∧
      c.inbox.countP Msg.isSnapshot = 1 := by
  obtain ⟨c, hc, -, hs⟩ := connectResyncProtocol (DataStore.mk 3600 [] 0)
    [Event.tick snapA 1] [Event.tick snapB 2] 7
  obtain ⟨h1, h2, h3⟩ := hs (stampSnap (snapA, 1)) (by rfl)
  exact ⟨c, hc, h1, h2, h3⟩

/-- C10 counterexample: on a store constructed with capacity 0, getStats
after clear computes utilization = (0 / 0) * 100 = NaN, not 0; so the claim
does not hold for every store state. -/
theorem clearStatsCounterexample :
    ((DataStore.mk 0 [] 0).clear.getStats 5).utilization = JSVal.nan ∧
    JSVal.nan ≠ JSVal.num 0 := by
  decide

/-- C10 amended: for every store state, clear() resets only the buffer:
maxSize and startTime are unchanged, and a stats() call after clear()
reports count 0, the same capacity, uptime still measured from the
original construction time, and null oldest/newest timestamps; the
reported utilization is 0 whenever the capacity is positive (for a
zero-capacity store JS computes (0/0)*100 = NaN instead). -/
theorem clearStatsAmended (st : DataStore) (now : Int) (h : 0 < st.maxSize) :
    st.clear.maxSize = st.maxSize ∧
    st.clear.startTime = st.startTime ∧
    st.clear.buffer = [] ∧
    st.clear.getStats now
      = { count := 0, maxSize := st.maxSize, utilization := JSVal.num 0,
          uptimeMs := now - st.startTime, oldestTimestamp := none,
          newestTimestamp := none } ∧
    (st.clear.getStats now).uptimeMs = (st.getStats now).uptimeMs := by
  refine ⟨rfl, rfl, rfl, ?_, rfl⟩
  unfold DataStore.clear DataStore.getStats jsDiv JSVal.mul100
  have hne : ((st.maxSize : ℚ)) ≠ 0 := Nat.cast_ne_zero.mpr (by omega)
  simp [hne]

/-- Witness for C10 amended on a concrete positive-capacity store. -/
theorem clearStatsAmendedWitness :
    0 < (DataStore.mk 3600 [snapA] 7).maxSize ∧
    ((DataStore.mk 3600 [snapA] 7).clear.maxSize = (DataStore.mk 3600 [snapA] 7).maxSize ∧
     (DataStore.mk 3600 [snapA] 7).clear.startTime = (DataStore.mk 3600 [snapA] 7).startTime ∧
     (DataStore.mk 3600 [snapA] 7).clear.buffer = [] ∧
     (DataStore.mk 3600 [snapA] 7).clear.getStats 10
        = { count := 0, maxSize := (DataStore.mk 3600 [snapA] 7).maxSize,
            utilization := JSVal.num 0,
            uptimeMs := 10 - (DataStore.mk 3600 [snapA] 7).startTime,
            oldestTimestamp := none, newestTimestamp := none } ∧
     ((DataStore.mk 3600 [snapA] 7).clear.getStats 10).uptimeMs
        = ((DataStore.mk 3600 [snapA] 7).getStats 10).uptimeMs) :=
  ⟨by decide, clearStatsAmended (DataStore.mk 3600 [snapA] 7) 10 (by decide)⟩

end PolyBTC
